import Mathlib

/-!
Shallow embedding of clifm's bulk file-mutation core (src/bulk_rename.c:
the `bulk_rename` flow and the `bulk_remove` flow), together with theorems
settling the specification claims about it.

Strings from the C code (file names, document lines, messages) are modelled
as `List Char`.  A document is the list of its lines' contents, each content
being the raw line with its terminating newline removed; file-system effects
(renameat, launch_execv, remove_files) are modelled as oracles whose calls
are recorded in the result.
-/

/-- A C string: file name, document line content, or message. -/
abbrev Line := List Char

/-- Convert a Lean string literal to the `List Char` model. -/
def str (s : String) : Line := s.data

/-- A raw line read by fgets/getline is skipped as a comment when it is the
bare newline (content empty) or its first character is `#`
(`!*line || *line == '\n' || *line == '#'` in the rename flow,
`*line == '#' || *line == '\n'` in the remove flow). -/
def isCommentLine (l : Line) : Bool :=
  l.isEmpty || l.head? == some '#'

/-- The non-comment lines of a document, in order. -/
def nonComment (doc : List Line) : List Line :=
  doc.filter (fun l => !isCommentLine l)

/-- Number of non-comment lines of a document (the count taken by
`check_line_mismatch` and by `diff_files`). -/
def countNonComment (doc : List Line) : Nat :=
  (nonComment doc).length

/-- `check_line_mismatch(fp, total_input)`: returns 1 (EXIT_FAILURE) when the
document's non-comment line count differs from `total_input`, else 0. -/
def check_line_mismatch (doc : List Line) (total_input : Nat) : Int :=
  if total_input ≠ countNonComment doc then 1 else 0

/-- The errno value EXDEV (cross-device link), as on Linux. -/
def EXDEV : Int := 18

def mvWord : Line := str "mv"

def dashDash : Line := str "--"

/-- The in-place trailing-slash trim at the top of `rename_file`
(`len > 1 && newpath[len - 1] == '/'`). -/
def trimSlash (p : Line) : Line :=
  if 1 < p.length ∧ p.getLast? = some '/' then p.dropLast else p

/-- `rename_file(oldpath, newpath)`.  `ren old new` is the renameat(2)
oracle: 0 on success, otherwise the errno of the failure.  `ex argv` is the
`launch_execv` oracle returning the child's exit status.  A trailing slash
of `newpath` is trimmed first when its length exceeds 1; on EXDEV the
fallback `mv -- oldpath newpath` runs in the foreground. -/
def rename_file (ren : Line → Line → Int) (ex : List Line → Int)
    (oldpath newpath : Line) : Int :=
  let np := trimSlash newpath
  let r := ren oldpath np
  if r = 0 then 0
  else if r ≠ EXDEV then r
  else ex [mvWord, dashDash, oldpath, np]

/-- The loop of `rename_bulk_files(args, fp, ...)`.  `rf old new` is the
result of `rename_file` on that pair.  `args` is the tail of argv
(`args[1]`, `args[2]`, ...); a non-comment line consumes one argv slot
(`i++`), comment lines are skipped.  Returns the final `exit_status`, the
count `renamed`, and the trace of pairs `rename_file` was invoked on. -/
def renameBulkGo (rf : Line → Line → Int) :
    List Line → List Line → Int → Nat → Int × Nat × List (Line × Line)
  | _, [], status, renamed => (status, renamed, [])
  | args, line :: rest, status, renamed =>
    if isCommentLine line then renameBulkGo rf args rest status renamed
    else
      match args with
      | [] => renameBulkGo rf [] rest status renamed
      | a :: as =>
        if a = line then renameBulkGo rf as rest status renamed
        else
          let ret := rf a line
          let r :=
            if ret ≠ 0 then renameBulkGo rf as rest ret renamed
            else renameBulkGo rf as rest status (renamed + 1)
          (r.1, r.2.1, (a, line) :: r.2.2)

/-- `rename_bulk_files` with `exit_status = EXIT_SUCCESS` and `renamed = 0`
at entry. -/
def rename_bulk_files (rf : Line → Line → Int) (args : List Line)
    (doc : List Line) : Int × Nat × List (Line × Line) :=
  renameBulkGo rf args doc 0 0

/-- The pairs `(args[i], line)` on which the loop invokes `rename_file`:
non-comment lines zipped positionally with the argv tail, keeping the pairs
whose two components differ. -/
def changedPairs (args : List Line) (doc : List Line) : List (Line × Line) :=
  (args.zip (nonComment doc)).filter (fun p => p.1 ≠ p.2)

/-- The last nonzero value of a list, or 0 (`exit_status` after the loop
assigns `exit_status = ret` on every failing item). -/
def lastNonzero (l : List Int) : Int :=
  l.foldl (fun acc r => if r = 0 then acc else r) 0

/-- `count_modified_names(args, fp)`: the number of non-comment lines that
differ from the argv entry at the same position (`args[i] && strcmp(args[i],
line) != 0`); `i` advances on every non-comment line. -/
def count_modified_names (args : List Line) : List Line → Nat
  | [] => 0
  | line :: rest =>
    if isCommentLine line then count_modified_names args rest
    else
      match args with
      | [] => count_modified_names [] rest
      | a :: as => (if a ≠ line then 1 else 0) + count_modified_names as rest

/-- The validation-and-write stage `write_renfiles_to_tmp`: each argv entry
is kept when unescaping, realpath resolution and lstat succeed (abstracted
by the oracle `valid`), and the kept names are the non-comment lines written
to the temporary document.  `total_input` is the length of the result. -/
def write_renfiles_to_tmp (valid : Line → Bool) (argsTail : List Line) :
    List Line :=
  argsTail.filter valid

def brNothingMsg : Line := str "br: Nothing to do"

def brMismatchMsg : Line := str "br: Line mismatch in temporary file"

/-- Observable outcome of one `bulk_rename` invocation (after the temporary
file was created and the editor returned successfully). -/
structure BRResult where
  status : Int
  msgs : List Line
  attempts : List (Line × Line)
  renamed : Nat
  unlinked : Bool
deriving DecidableEq, Repr

/-- `bulk_rename(args)` after the editor returned: `argsTail` is
`args[1..]`, `valid` the per-argument validation oracle, `editedDoc` the
document content saved by the user, `mtimeChanged` whether the document's
mtime differs from the one stored at write time, and `confirm` the user's
reply to `Continue? [y/n]`.  `attempts` records every `rename_file` call. -/
def bulk_rename (ren : Line → Line → Int) (ex : List Line → Int)
    (valid : Line → Bool) (argsTail : List Line) (editedDoc : List Line)
    (mtimeChanged : Bool) (confirm : Bool) : BRResult :=
  let total_input := (write_renfiles_to_tmp valid argsTail).length
  if total_input = 0 then
    { status := 1, msgs := [], attempts := [], renamed := 0, unlinked := true }
  else if mtimeChanged = false then
    { status := 0, msgs := [brNothingMsg], attempts := [], renamed := 0,
      unlinked := true }
  else if check_line_mismatch editedDoc total_input ≠ 0 then
    { status := 1, msgs := [brMismatchMsg], attempts := [], renamed := 0,
      unlinked := true }
  else if confirm = false then
    { status := 0, msgs := [], attempts := [], renamed := 0, unlinked := true }
  else
    let r := rename_bulk_files (rename_file ren ex) argsTail editedDoc
    { status := r.1, msgs := [], attempts := r.2.2, renamed := r.2.1,
      unlinked := true }

/-! ## Remove flow (`bulk_remove`) -/

/-- File types as reported by `struct dirent` (`d_type`), restricted to the
cases a default build distinguishes. -/
inductive DType
  | dt_dir
  | dt_reg
  | dt_lnk
  | dt_sock
  | dt_fifo
  | dt_blk
  | dt_chr
  | dt_unknown
deriving DecidableEq, Repr

/-- `get_file_suffix(type)`: the cosmetic type suffix appended to a name in
the temporary document; `none` models the C function returning 0. -/
def get_file_suffix : DType → Option Char
  | .dt_dir => some '/'
  | .dt_reg => none
  | .dt_lnk => some '@'
  | .dt_sock => some '='
  | .dt_fifo => some '|'
  | .dt_unknown => some '?'
  | _ => none

/-- `print_file(fp, name, type)`: the line content written for one entry
(the name, with the type suffix appended when there is one). -/
def print_file (name : Line) (type : DType) : Line :=
  match get_file_suffix type with
  | some s => name ++ [s]
  | none => name

/-- The suffix characters stripped on read
(`'/' '@' '=' '|' '?'` in `get_files_from_tmp_file`). -/
def tmpSuffixChars : List Char := ['/', '@', '=', '|', '?']

/-- Whether a line's last character is one of the strippable suffixes. -/
def hasTmpSuffix (l : Line) : Bool :=
  match l.getLast? with
  | some c => tmpSuffixChars.contains c
  | none => false

/-- One iteration of the read loop of `get_files_from_tmp_file`: skip the
line when it is a comment (`*line == '#' || *line == '\n'`), else strip one
trailing suffix character when present. -/
def read_tmp_line (line : Line) : Option Line :=
  if isCommentLine line then none
  else if hasTmpSuffix line then some line.dropLast
  else some line

/-- `get_files_from_tmp_file(tmp_file, ...)`: the surviving names read back
from the edited document. -/
def get_files_from_tmp_file (doc : List Line) : List Line :=
  doc.filterMap read_tmp_line

/-- `SELFORPARENT(s)`: whether a directory entry is `.` or `..`. -/
def SELFORPARENT (s : Line) : Bool :=
  s = str "." || s = str ".."

/-- `remove_this_file(file, list)`: 1 when FILE is to be removed (not `.` or
`..` and not found in LIST), 0 otherwise. -/
def remove_this_file (file : Line) (list : List Line) : Int :=
  if SELFORPARENT file then 0
  else if file ∈ list then 0
  else 1

/-- How the entry list of a `bulk_remove` invocation was obtained: from the
cached workspace listing (`file_info`, target = CWD) or from a `scandir` of
another directory (entries still include `.` and `..`). -/
inductive RRMode
  | cwd (fileInfo : List Line)
  | dir (cwdPath : Line) (target : Line) (scanEntries : List Line)
deriving DecidableEq, Repr

def rrWord : Line := str "rr"

/-- `get_remove_files(target, tmp_files, ...)`: the argv vector handed to
`remove_files`.  For a non-CWD target each scheduled name is resolved as
`target/name`, or `cwd/target/name` when `target` is relative. -/
def get_remove_files (mode : RRMode) (tmp_files : List Line) : List Line :=
  match mode with
  | .cwd fileInfo =>
    rrWord :: fileInfo.filter (fun e => remove_this_file e tmp_files = 1)
  | .dir cwdPath target scanEntries =>
    rrWord :: (scanEntries.filter
        (fun e => remove_this_file e tmp_files = 1)).map
      (fun name => if target.head? = some '/' then target ++ '/' :: name
        else cwdPath ++ '/' :: (target ++ '/' :: name))

/-- The expected-count `num` passed to `diff_files`: the cached listing's
length for a CWD target, else the scandir count minus the two dotted
entries. -/
def rrNum (mode : RRMode) : Int :=
  match mode with
  | .cwd fileInfo => (fileInfo.length : Int)
  | .dir _ _ scanEntries => (scanEntries.length : Int) - 2

/-- `diff_files(tmp_file, n)`: 1 when the edited document has strictly fewer
non-comment lines than N, 0 otherwise (`c < n ? 1 : 0`). -/
def diff_files (doc : List Line) (n : Int) : Int :=
  if (countNonComment doc : Int) < n then 1 else 0

def rrNothingMsg : Line := str "rr: Nothing to do"

/-- Observable outcome of one `bulk_remove` invocation (after the temporary
file was written and the editor returned successfully).  `removeArgv` is the
argv handed to the `remove_files` collaborator, `none` when it was never
called. -/
structure RRResult where
  status : Int
  removeArgv : Option (List Line)
  msgs : List Line
  unlinked : Bool
deriving DecidableEq, Repr

/-- `bulk_remove(s1, s2)` after the editor returned: when the mtime is
unchanged or `diff_files` returns 0, the `nothing_to_do` path runs;
otherwise the surviving set is read back and `remove_files` is invoked. -/
def bulk_remove (removeFiles : List Line → Int) (mode : RRMode)
    (editedDoc : List Line) (mtimeChanged : Bool) : RRResult :=
  if mtimeChanged = false || diff_files editedDoc (rrNum mode) = 0 then
    { status := 0, removeArgv := none, msgs := [rrNothingMsg],
      unlinked := true }
  else
    let rfiles := get_files_from_tmp_file editedDoc
    let rem := get_remove_files mode rfiles
    { status := removeFiles rem, removeArgv := some rem, msgs := [],
      unlinked := true }

/-! ## Concrete oracles used to instantiate the models -/

/-- A `launch_execv` oracle whose children always exit 0. -/
def exZero : List Line → Int := fun _ => 0

/-- A renameat oracle that always succeeds. -/
def renZero : Line → Line → Int := fun _ _ => 0

/-- A `remove_files` collaborator that always succeeds. -/
def rmfZero : List Line → Int := fun _ => 0

/-- A validation oracle accepting every argument. -/
def validAll : Line → Bool := fun _ => true

/-- A renameat oracle failing with errno 5 on source `a` and errno 7
otherwise (neither is EXDEV). -/
def renTwoErrs : Line → Line → Int :=
  fun o _ => if o = str "a" then 5 else 7

/-- A renameat oracle: EXDEV on destination `b`, errno 13 on destination
`c`, success otherwise. -/
def renMixed : Line → Line → Int :=
  fun _ n => if n = str "b" then EXDEV else if n = str "c" then 13 else 0

/-- A `launch_execv` oracle whose children always exit 99. -/
def exNN : List Line → Int := fun _ => 99

/-- A validation oracle rejecting exactly the argument `bad` (as lstat does
when the file does not exist). -/
def validNotBad : Line → Bool := fun a => !(a == str "bad")

/-! ## Helper lemmas -/

theorem renameBulkGo_trace (rf : Line → Line → Int) (doc : List Line) :
    ∀ args status renamed,
      (renameBulkGo rf args doc status renamed).2.2 = changedPairs args doc := by
  induction doc with
  | nil =>
    intro args status renamed
    simp [renameBulkGo, changedPairs, nonComment]
  | cons line rest ih =>
    intro args status renamed
    by_cases hc : isCommentLine line
    · simp [renameBulkGo, hc, changedPairs, nonComment, List.filter_cons]
      have := ih args status renamed
      simpa [changedPairs, nonComment] using this
    · cases args with
      | nil =>
        simp [renameBulkGo, hc, changedPairs, nonComment, List.filter_cons]
        have := ih ([] : List Line) status renamed
        simpa [changedPairs, nonComment] using this
      | cons a as =>
        by_cases he : a = line
        · simp [renameBulkGo, hc, he, changedPairs, nonComment,
            List.filter_cons]
          have := ih as status renamed
          simpa [changedPairs, nonComment, he] using this
        · by_cases hr : rf a line = 0
          · have := ih as status (renamed + 1)
            simp [renameBulkGo, hc, he, hr, changedPairs, nonComment,
              List.filter_cons] at this ⊢
            exact this
          · have := ih as (rf a line) renamed
            simp [renameBulkGo, hc, he, hr, changedPairs, nonComment,
              List.filter_cons] at this ⊢
            exact this

theorem renameBulkGo_status (rf : Line → Line → Int) (doc : List Line) :
    ∀ args status renamed,
      (renameBulkGo rf args doc status renamed).1 =
        ((changedPairs args doc).map (fun p => rf p.1 p.2)).foldl
          (fun acc r => if r = 0 then acc else r) status := by
  induction doc with
  | nil =>
    intro args status renamed
    simp [renameBulkGo, changedPairs, nonComment]
  | cons line rest ih =>
    intro args status renamed
    by_cases hc : isCommentLine line
    · have := ih args status renamed
      simp [renameBulkGo, hc, changedPairs, nonComment, List.filter_cons] at this ⊢
      exact this
    · cases args with
      | nil =>
        have := ih ([] : List Line) status renamed
        simp [renameBulkGo, hc, changedPairs, nonComment, List.filter_cons]
          at this ⊢
        exact this
      | cons a as =>
        by_cases he : a = line
        · have := ih as status renamed
          simp [renameBulkGo, hc, he, changedPairs, nonComment,
            List.filter_cons] at this ⊢
          exact this
        · by_cases hr : rf a line = 0
          · have := ih as status (renamed + 1)
            simp [renameBulkGo, hc, he, hr, changedPairs, nonComment,
              List.filter_cons] at this ⊢
            exact this
          · have := ih as (rf a line) renamed
            simp [renameBulkGo, hc, he, hr, changedPairs, nonComment,
              List.filter_cons] at this ⊢
            exact this

theorem renameBulkGo_append_comment (rf : Line → Line → Int) (c : Line)
    (hc : isCommentLine c = true) (post : List Line) :
    ∀ pre args status renamed,
      renameBulkGo rf args (pre ++ c :: post) status renamed =
        renameBulkGo rf args (pre ++ post) status renamed := by
  intro pre
  induction pre with
  | nil =>
    intro args status renamed
    simp [renameBulkGo, hc]
  | cons l rest ih =>
    intro args status renamed
    by_cases hl : isCommentLine l
    · simp [renameBulkGo, hl, ih]
    · cases args with
      | nil => simp [renameBulkGo, hl, ih]
      | cons a as =>
        by_cases he : a = l
        · simp [renameBulkGo, hl, he, ih]
        · by_cases hr : rf a l = 0
          · simp [renameBulkGo, hl, he, hr, ih]
          · simp [renameBulkGo, hl, he, hr, ih]

theorem count_modified_names_append_comment (c : Line)
    (hc : isCommentLine c = true) (post : List Line) :
    ∀ pre args,
      count_modified_names args (pre ++ c :: post) =
        count_modified_names args (pre ++ post) := by
  intro pre
  induction pre with
  | nil =>
    intro args
    simp [count_modified_names, hc]
  | cons l rest ih =>
    intro args
    by_cases hl : isCommentLine l
    · simp [count_modified_names, hl, ih]
    · cases args with
      | nil => simp [count_modified_names, hl, ih]
      | cons a as => simp [count_modified_names, hl, ih]

theorem nonComment_append_comment (c : Line) (hc : isCommentLine c = true)
    (pre post : List Line) :
    nonComment (pre ++ c :: post) = nonComment (pre ++ post) := by
  simp [nonComment, List.filter_append, List.filter_cons, hc]

/-- A built path `t ++ '/' :: n` always contains a slash. -/
theorem slash_mem_built (t n : Line) : '/' ∈ t ++ '/' :: n :=
  List.mem_append.mpr (Or.inr (List.mem_cons_self _ _))

/-! ## Claim theorems -/

/-- C1, counterexample.  Two renames fail, first with errno 5, then with
errno 7; both are attempted, and the aggregate status `bulk_rename` returns
is 7 — the LAST nonzero code — not the first one (5), refuting the claim
that the aggregate is the first nonzero code. -/
theorem c1_counterexample :
    rename_file renTwoErrs exZero (str "a") (str "x") = 5 ∧
    rename_file renTwoErrs exZero (str "b") (str "y") = 7 ∧
    (bulk_rename renTwoErrs exZero validAll [str "a", str "b"]
        [str "x", str "y"] true true).attempts =
      [(str "a", str "x"), (str "b", str "y")] ∧
    (bulk_rename renTwoErrs exZero validAll [str "a", str "b"]
        [str "x", str "y"] true true).status = 7 ∧
    (7 : Int) ≠ 5 := by
  decide

/-- C1 (amended).  If the k-th rename in the change list fails, the
remaining renames are still attempted (the set of attempted pairs is exactly
the positionally differing pairs, independent of any failure), and the
aggregate value returned by `bulk_rename` is the LAST nonzero error code
encountered (0 when none fails). -/
theorem c1_continue_last_error (ren : Line → Line → Int)
    (ex : List Line → Int) (valid : Line → Bool)
    (argsTail editedDoc : List Line)
    (h0 : (write_renfiles_to_tmp valid argsTail).length ≠ 0)
    (h1 : check_line_mismatch editedDoc
      (write_renfiles_to_tmp valid argsTail).length = 0) :
    (bulk_rename ren ex valid argsTail editedDoc true true).attempts =
      changedPairs argsTail editedDoc ∧
    (bulk_rename ren ex valid argsTail editedDoc true true).status =
      lastNonzero ((changedPairs argsTail editedDoc).map
        (fun p => rename_file ren ex p.1 p.2)) := by
  unfold bulk_rename
  simp only [h0, if_false, h1]
  simp [rename_bulk_files, renameBulkGo_trace, renameBulkGo_status,
    lastNonzero]

theorem c1_witness :
    (bulk_rename renTwoErrs exZero validAll [str "a"] [str "z"]
        true true).attempts = changedPairs [str "a"] [str "z"] ∧
    (bulk_rename renTwoErrs exZero validAll [str "a"] [str "z"]
        true true).status =
      lastNonzero ((changedPairs [str "a"] [str "z"]).map
        (fun p => rename_file renTwoErrs exZero p.1 p.2)) :=
  c1_continue_last_error renTwoErrs exZero validAll [str "a"] [str "z"]
    (by decide) (by decide)

/-- C2.  When the edited document's non-comment line count differs from the
number of valid input entries (and there was at least one valid entry),
`bulk_rename` aborts before performing any rename: no `rename_file` call is
made, the line-mismatch diagnostic is emitted, the temporary document is
unlinked, and the returned status is nonzero (EXIT_FAILURE). -/
theorem c2_line_mismatch_aborts (ren : Line → Line → Int)
    (ex : List Line → Int) (valid : Line → Bool)
    (argsTail editedDoc : List Line) (confirm : Bool)
    (h0 : (write_renfiles_to_tmp valid argsTail).length ≠ 0)
    (h1 : countNonComment editedDoc ≠
      (write_renfiles_to_tmp valid argsTail).length) :
    bulk_rename ren ex valid argsTail editedDoc true confirm =
      { status := 1, msgs := [brMismatchMsg], attempts := [], renamed := 0,
        unlinked := true } ∧
    (1 : Int) ≠ 0 := by
  refine ⟨?_, by decide⟩
  have h2 : (write_renfiles_to_tmp valid argsTail).length ≠
      countNonComment editedDoc := Ne.symm h1
  unfold bulk_rename check_line_mismatch
  simp [h0, h2]

theorem c2_witness :
    bulk_rename renZero exZero validAll [str "a", str "b"] [str "x"]
        true true =
      { status := 1, msgs := [brMismatchMsg], attempts := [], renamed := 0,
        unlinked := true } ∧
    (1 : Int) ≠ 0 :=
  c2_line_mismatch_aborts renZero exZero validAll [str "a", str "b"]
    [str "x"] true (by decide) (by decide)

/-- C3, counterexample.  A remove-flow document whose non-comment line count
EQUALS the original entry count (1 = 1, mtime changed) is treated as
nothing-to-do: `remove_files` is never invoked and the nothing-to-do message
is printed, refuting the claim that an equal count proceeds to the
surviving-set computation. -/
theorem c3_counterexample :
    rrNum (RRMode.cwd [str "a"]) = 1 ∧
    countNonComment [str "a"] = 1 ∧
    (bulk_remove rmfZero (RRMode.cwd [str "a"]) [str "a"] true).removeArgv =
      none ∧
    (bulk_remove rmfZero (RRMode.cwd [str "a"]) [str "a"] true).msgs =
      [rrNothingMsg] := by
  decide

/-- C3 (amended).  With the mtime changed, the remove flow proceeds to the
surviving-set computation only when the edited document has STRICTLY FEWER
non-comment lines than the original entry count; a document with as many or
more lines is treated as nothing-to-do (no removal argv is built and the
status is 0). -/
theorem c3_remove_gate (rmf : List Line → Int) (mode : RRMode)
    (editedDoc : List Line)
    (hge : rrNum mode ≤ (countNonComment editedDoc : Int)) :
    bulk_remove rmf mode editedDoc true =
      { status := 0, removeArgv := none, msgs := [rrNothingMsg],
        unlinked := true } ∧
    ∀ doc2 : List Line, (countNonComment doc2 : Int) < rrNum mode →
      bulk_remove rmf mode doc2 true =
        { status :=
            rmf (get_remove_files mode (get_files_from_tmp_file doc2)),
          removeArgv :=
            some (get_remove_files mode (get_files_from_tmp_file doc2)),
          msgs := [], unlinked := true } := by
  constructor
  · unfold bulk_remove diff_files
    simp [not_lt.mpr hge]
  · intro doc2 hlt
    unfold bulk_remove diff_files
    simp [hlt]

theorem c3_witness :
    bulk_remove rmfZero (RRMode.cwd [str "a"]) [str "a", str "b"] true =
      { status := 0, removeArgv := none, msgs := [rrNothingMsg],
        unlinked := true } ∧
    bulk_remove rmfZero (RRMode.cwd [str "a"]) [] true =
      { status :=
          rmfZero (get_remove_files (RRMode.cwd [str "a"])
            (get_files_from_tmp_file [])),
        removeArgv :=
          some (get_remove_files (RRMode.cwd [str "a"])
            (get_files_from_tmp_file [])),
        msgs := [], unlinked := true } :=
  ⟨(c3_remove_gate rmfZero (RRMode.cwd [str "a"]) [str "a", str "b"]
      (by decide)).1,
   (c3_remove_gate rmfZero (RRMode.cwd [str "a"]) [str "a", str "b"]
      (by decide)).2 [] (by decide)⟩

/-- C4.  In both flows, when the temporary document's modification time
after the editor returns equals the saved one, the operation prints
"Nothing to do", performs no file-system mutation (no rename attempt, no
`remove_files` call), unlinks the temporary document, and returns 0. -/
theorem c4_unchanged_nothing_to_do (ren : Line → Line → Int)
    (ex : List Line → Int) (valid : Line → Bool)
    (argsTail editedDoc : List Line) (confirm : Bool)
    (rmf : List Line → Int) (mode : RRMode) (rdoc : List Line)
    (h0 : (write_renfiles_to_tmp valid argsTail).length ≠ 0) :
    bulk_rename ren ex valid argsTail editedDoc false confirm =
      { status := 0, msgs := [brNothingMsg], attempts := [], renamed := 0,
        unlinked := true } ∧
    bulk_remove rmf mode rdoc false =
      { status := 0, removeArgv := none, msgs := [rrNothingMsg],
        unlinked := true } := by
  constructor
  · unfold bulk_rename
    simp [h0]
  · unfold bulk_remove
    simp

theorem c4_witness :
    bulk_rename renZero exZero validAll [str "a"] [str "a"] false true =
      { status := 0, msgs := [brNothingMsg], attempts := [], renamed := 0,
        unlinked := true } ∧
    bulk_remove rmfZero (RRMode.cwd [str "a"]) [str "a"] false =
      { status := 0, removeArgv := none, msgs := [rrNothingMsg],
        unlinked := true } :=
  c4_unchanged_nothing_to_do renZero exZero validAll [str "a"] [str "a"]
    true rmfZero (RRMode.cwd [str "a"]) [str "a"] (by decide)

/-- C5.  Comment lines (first character `#`) and empty lines are invisible
to the Differ in both flows: inserting such a line at any position changes
neither the non-comment line count, nor the modified-name count, nor the
rename executor's behaviour (status, renamed count and attempted pairs), nor
the surviving set read back for remove, nor the computed removal list, nor
the `diff_files` verdict. -/
theorem c5_comment_invisibility (rf : Line → Line → Int) (args : List Line)
    (pre post : List Line) (c : Line) (mode : RRMode) (n : Int)
    (h : isCommentLine c = true) :
    countNonComment (pre ++ c :: post) = countNonComment (pre ++ post) ∧
    count_modified_names args (pre ++ c :: post) =
      count_modified_names args (pre ++ post) ∧
    rename_bulk_files rf args (pre ++ c :: post) =
      rename_bulk_files rf args (pre ++ post) ∧
    get_files_from_tmp_file (pre ++ c :: post) =
      get_files_from_tmp_file (pre ++ post) ∧
    get_remove_files mode (get_files_from_tmp_file (pre ++ c :: post)) =
      get_remove_files mode (get_files_from_tmp_file (pre ++ post)) ∧
    diff_files (pre ++ c :: post) n = diff_files (pre ++ post) n := by
  have hcount : countNonComment (pre ++ c :: post) =
      countNonComment (pre ++ post) := by
    unfold countNonComment
    rw [nonComment_append_comment c h]
  have hget : get_files_from_tmp_file (pre ++ c :: post) =
      get_files_from_tmp_file (pre ++ post) := by
    have hr : read_tmp_line c = none := by
      unfold read_tmp_line
      simp [h]
    unfold get_files_from_tmp_file
    simp [List.filterMap_append, List.filterMap_cons, hr]
  refine ⟨hcount, count_modified_names_append_comment c h post pre args,
    ?_, hget, by rw [hget], ?_⟩
  · unfold rename_bulk_files
    exact renameBulkGo_append_comment rf c h post pre args 0 0
  · unfold diff_files
    rw [hcount]

theorem c5_witness :
    countNonComment ([str "a"] ++ str "# x" :: [str "b"]) =
      countNonComment ([str "a"] ++ [str "b"]) ∧
    count_modified_names [str "a", str "b"]
        ([str "a"] ++ str "# x" :: [str "b"]) =
      count_modified_names [str "a", str "b"] ([str "a"] ++ [str "b"]) ∧
    rename_bulk_files renZero [str "a", str "b"]
        ([str "a"] ++ str "# x" :: [str "b"]) =
      rename_bulk_files renZero [str "a", str "b"] ([str "a"] ++ [str "b"]) ∧
    get_files_from_tmp_file ([str "a"] ++ str "# x" :: [str "b"]) =
      get_files_from_tmp_file ([str "a"] ++ [str "b"]) ∧
    get_remove_files (RRMode.cwd [str "a", str "b"])
        (get_files_from_tmp_file ([str "a"] ++ str "# x" :: [str "b"])) =
      get_remove_files (RRMode.cwd [str "a", str "b"])
        (get_files_from_tmp_file ([str "a"] ++ [str "b"])) ∧
    diff_files ([str "a"] ++ str "# x" :: [str "b"]) 2 =
      diff_files ([str "a"] ++ [str "b"]) 2 :=
  c5_comment_invisibility renZero [str "a", str "b"] [str "a"] [str "b"]
    (str "# x") (RRMode.cwd [str "a", str "b"]) 2 (by decide)

/-- C6.  `rename_file` first trims a trailing slash from NEWPATH when its
length exceeds 1; it returns 0 when renameat succeeds; on EXDEV it falls
back to `launch_execv` on argv `mv -- OLDPATH NEWPATH` (foreground) and
returns that exit status; on any other errno it returns that errno. -/
theorem c6_rename_file_contract (ren : Line → Line → Int)
    (ex : List Line → Int) (old new : Line) :
    (1 < new.length ∧ new.getLast? = some '/' →
      trimSlash new = new.dropLast) ∧
    (ren old (trimSlash new) = 0 → rename_file ren ex old new = 0) ∧
    (ren old (trimSlash new) = EXDEV →
      rename_file ren ex old new =
        ex [mvWord, dashDash, old, trimSlash new]) ∧
    (∀ e : Int, ren old (trimSlash new) = e → e ≠ 0 → e ≠ EXDEV →
      rename_file ren ex old new = e) := by
  refine ⟨?_, ?_, ?_, ?_⟩
  · intro hp
    unfold trimSlash
    simp [hp]
  · intro hp
    simp [rename_file, hp]
  · intro hp
    simp [rename_file, hp, EXDEV]
  · intro e hp h0 hx
    simp [rename_file, hp, h0, hx]

theorem c6_witness :
    trimSlash (str "d/") = (str "d/").dropLast ∧
    rename_file renMixed exNN (str "a") (str "z") = 0 ∧
    rename_file renMixed exNN (str "a") (str "b") =
      exNN [mvWord, dashDash, str "a", trimSlash (str "b")] ∧
    rename_file renMixed exNN (str "a") (str "c") = 13 :=
  ⟨(c6_rename_file_contract renMixed exNN (str "a") (str "d/")).1
      (by decide),
   (c6_rename_file_contract renMixed exNN (str "a") (str "z")).2.1
      (by decide),
   (c6_rename_file_contract renMixed exNN (str "a") (str "b")).2.2.1
      (by decide),
   (c6_rename_file_contract renMixed exNN (str "a") (str "c")).2.2.2 13
      (by decide) (by decide) (by decide)⟩

/-- C7 (evaluation at the failing input).  With argv tail `[bad, good]`
where `bad` fails validation, the written document holds the single valid
entry `good` and the edited single line `x` passes the line-count check; yet
the executor pairs that line with argv position 1 and attempts
`rename(bad, x)`, never touching the first VALID entry `good` — the
positional pairing is with raw argv slots, not with valid entries. -/
theorem c7_misaligned_pairing :
    write_renfiles_to_tmp validNotBad [str "bad", str "good"] =
      [str "good"] ∧
    check_line_mismatch [str "x"]
      (write_renfiles_to_tmp validNotBad [str "bad", str "good"]).length
      = 0 ∧
    (bulk_rename renZero exZero validNotBad [str "bad", str "good"]
        [str "x"] true true).attempts = [(str "bad", str "x")] ∧
    ¬ ((str "good", str "x") ∈
      (bulk_rename renZero exZero validNotBad [str "bad", str "good"]
        [str "x"] true true).attempts) := by
  decide

theorem read_tmp_line_concat_suffix (a : Char) (l : Line) (s : Char)
    (ha : a ≠ '#') (hs : tmpSuffixChars.contains s = true) :
    read_tmp_line ((a :: l) ++ [s]) = some (a :: l) := by
  have hcomment : isCommentLine ((a :: l) ++ [s]) = false := by
    simp [isCommentLine, ha]
  have hsuf : hasTmpSuffix ((a :: l) ++ [s]) = true := by
    unfold hasTmpSuffix
    rw [List.getLast?_concat]
    exact hs
  have hdrop : ((a :: l) ++ [s]).dropLast = a :: l := List.dropLast_concat
  simp only [read_tmp_line, hcomment, hsuf, hdrop]
  simp

theorem read_tmp_line_plain (a : Char) (l : Line) (ha : a ≠ '#')
    (h3 : hasTmpSuffix (a :: l) = false) :
    read_tmp_line (a :: l) = some (a :: l) := by
  unfold read_tmp_line
  simp [isCommentLine, ha, h3]

/-- C8, counterexample.  The regular file named `#a` does not end in any
suffix character, yet writing it with `print_file` and reading the line back
yields nothing at all — the reader skips the line as a comment — so the
original name is NOT recovered. -/
theorem c8_counterexample :
    hasTmpSuffix (str "#a") = false ∧
    read_tmp_line (print_file (str "#a") DType.dt_reg) = none ∧
    (none : Option Line) ≠ some (str "#a") := by
  decide

/-- C8 (amended).  For every entry whose name is nonempty, does not begin
with `#`, and does not end in one of `/ @ = | ?`, writing the entry with
`print_file` and reading the line back with the `get_files_from_tmp_file`
line reader recovers exactly the original name, for every entry kind. -/
theorem c8_print_read_roundtrip (name : Line) (t : DType)
    (h1 : name ≠ [])
    (h2 : name.head? ≠ some '#')
    (h3 : hasTmpSuffix name = false) :
    read_tmp_line (print_file name t) = some name := by
  obtain ⟨a, l, rfl⟩ : ∃ a l, name = a :: l := by
    cases name with
    | nil => exact absurd rfl h1
    | cons a l => exact ⟨a, l, rfl⟩
  have ha : a ≠ '#' := by
    intro hh
    exact h2 (by simp [hh])
  cases t with
  | dt_dir =>
    simpa [print_file, get_file_suffix] using
      read_tmp_line_concat_suffix a l '/' ha (by decide)
  | dt_reg =>
    simpa [print_file, get_file_suffix] using read_tmp_line_plain a l ha h3
  | dt_lnk =>
    simpa [print_file, get_file_suffix] using
      read_tmp_line_concat_suffix a l '@' ha (by decide)
  | dt_sock =>
    simpa [print_file, get_file_suffix] using
      read_tmp_line_concat_suffix a l '=' ha (by decide)
  | dt_fifo =>
    simpa [print_file, get_file_suffix] using
      read_tmp_line_concat_suffix a l '|' ha (by decide)
  | dt_blk =>
    simpa [print_file, get_file_suffix] using read_tmp_line_plain a l ha h3
  | dt_chr =>
    simpa [print_file, get_file_suffix] using read_tmp_line_plain a l ha h3
  | dt_unknown =>
    simpa [print_file, get_file_suffix] using
      read_tmp_line_concat_suffix a l '?' ha (by decide)

theorem c8_witness :
    read_tmp_line (print_file (str "a") DType.dt_dir) = some (str "a") :=
  c8_print_read_roundtrip (str "a") DType.dt_dir (by decide) (by decide)
    (by decide)

/-- C9, counterexample.  The entry named `.` string-equals no surviving
line (the read-back list is empty), yet it is never scheduled for removal:
the computed argv is just `[rr]`.  This refutes the claimed "survives if
and only if its name equals some surviving line". -/
theorem c9_counterexample :
    get_remove_files (RRMode.cwd [str "."]) [] = [rrWord] ∧
    ¬ (str "." ∈ ([] : List Line)) ∧
    ¬ (str "." ∈ get_remove_files (RRMode.cwd [str "."]) []) := by
  decide

/-- C9 (amended).  The computed removal list depends only on the SET of
names read from the edited document (lists with the same members — e.g.
permutations or duplications — give identical removal lists); an entry not
named `.` or `..` is kept exactly when its name string-equals some surviving
line, and the dotted entries are always kept, identity being by name, never
by position. -/
theorem c9_removal_by_name (mode : RRMode) (tmp1 tmp2 : List Line)
    (hm : ∀ s : Line, s ∈ tmp1 ↔ s ∈ tmp2) :
    get_remove_files mode tmp1 = get_remove_files mode tmp2 ∧
    ∀ (e : Line) (tmp : List Line),
      (SELFORPARENT e = true → remove_this_file e tmp = 0) ∧
      (SELFORPARENT e = false →
        (remove_this_file e tmp = 0 ↔ e ∈ tmp)) := by
  have hcong : ∀ e : Line,
      remove_this_file e tmp1 = remove_this_file e tmp2 := by
    intro e
    unfold remove_this_file
    by_cases hs : SELFORPARENT e
    · simp [hs]
    · by_cases h1 : e ∈ tmp1
      · simp [hs, h1, (hm e).mp h1]
      · have h2 : ¬ (e ∈ tmp2) := fun h => h1 ((hm e).mpr h)
        simp [hs, h1, h2]
  constructor
  · have hfil : ∀ es : List Line,
        es.filter (fun e => remove_this_file e tmp1 = 1) =
          es.filter (fun e => remove_this_file e tmp2 = 1) := by
      intro es
      exact List.filter_congr (fun a _ => by rw [hcong a])
    cases mode with
    | cwd fi =>
      simp only [get_remove_files]
      rw [hfil]
    | dir c t es =>
      simp only [get_remove_files]
      rw [hfil]
  · intro e tmp
    constructor
    · intro hs
      unfold remove_this_file
      simp [hs]
    · intro hs
      unfold remove_this_file
      by_cases h1 : e ∈ tmp
      · simp [hs, h1]
      · simp [hs, h1]

theorem c9_witness :
    get_remove_files (RRMode.cwd [str "a", str "b"]) [str "a", str "a"] =
      get_remove_files (RRMode.cwd [str "a", str "b"]) [str "a"] :=
  (c9_removal_by_name (RRMode.cwd [str "a", str "b"]) [str "a", str "a"]
    [str "a"] (by intro s; simp)).1

theorem not_dotted_mem_remove_files (mode : RRMode) (tmp : List Line)
    (d : Line) (hd : SELFORPARENT d = true) (hslash : ¬ ('/' ∈ d))
    (hrr : d ≠ rrWord) : ¬ (d ∈ get_remove_files mode tmp) := by
  intro hmem
  cases mode with
  | cwd fi =>
    simp only [get_remove_files] at hmem
    rcases List.mem_cons.mp hmem with h | h
    · exact hrr h
    · have h1 : remove_this_file d tmp = 1 :=
        of_decide_eq_true (List.mem_filter.mp h).2
      unfold remove_this_file at h1
      simp [hd] at h1
  | dir c t es =>
    simp only [get_remove_files] at hmem
    rcases List.mem_cons.mp hmem with h | h
    · exact hrr h
    · rcases List.mem_map.mp h with ⟨name, _, heq⟩
      apply hslash
      rw [← heq]
      split
      · exact slash_mem_built t name
      · exact slash_mem_built c (t ++ '/' :: name)

/-- C10.  For every entry list and every read-back document, the argv
vector built for the `remove_files` collaborator starts with the literal
`rr` and never contains an element named `.` or `..` — dotted entries are
filtered by `remove_this_file`, and non-CWD elements are slash-containing
paths, which `.` and `..` are not. -/
theorem c10_remove_argv_shape (mode : RRMode) (tmp : List Line) :
    (get_remove_files mode tmp).head? = some rrWord ∧
    ¬ (str "." ∈ get_remove_files mode tmp) ∧
    ¬ (str ".." ∈ get_remove_files mode tmp) := by
  refine ⟨?_, ?_, ?_⟩
  · cases mode <;> rfl
  · exact not_dotted_mem_remove_files mode tmp (str ".") (by decide)
      (by decide) (by decide)
  · exact not_dotted_mem_remove_files mode tmp (str "..") (by decide)
      (by decide) (by decide)
